import Mathlib

/-!
Shallow embedding of the deterministic simulation engine, the Monte Carlo
engine and the goal solver of the investment-retirement calculator
(`src/utils/calculations.js`, the Monte Carlo module and the goal-finder
module).  JavaScript numbers are idealized as exact rationals (ℚ); the
`Infinity` sentinel used by the goal solver is modelled with `WithTop ℚ`.
Fields that a JavaScript return object may omit are modelled with `Option`.
-/

namespace RetireCalc

/-- Real rate of return via the exact Fisher equation, as a percentage
(`calculateRealRate`). -/
def calculateRealRate (nominalRatePercent inflationRatePercent : ℚ) : ℚ :=
  ((1 + nominalRatePercent / 100) / (1 + inflationRatePercent / 100) - 1) * 100

/-- Life-event kinds recognised by the engines (`event.type`). -/
inductive EventType where
  | addition
  | withdrawal
  deriving DecidableEq, Repr

/-- A scheduled one-off cash event (`{year, amount, type, label}`). -/
structure LifeEvent where
  year : ℕ
  amount : ℚ
  type : EventType
  label : String
  deriving DecidableEq, Repr

/-- Simulation phase tag. -/
inductive Phase where
  | accumulation
  | distribution
  deriving DecidableEq, Repr

/-- The `lifeEvent` field of a year record (net amount, last label/type seen). -/
structure AppliedLifeEvent where
  amount : ℚ
  label : Option String
  type : Option EventType
  deriving DecidableEq, Repr

/-- One row of `yearlyData`.  `sipAmount` is present only in accumulation
records, `withdrawalAmount` only in distribution records. -/
structure YearRecord where
  year : ℕ
  phase : Phase
  openingBalance : ℚ
  contribution : ℚ
  interestEarned : ℚ
  withdrawal : ℚ
  closingBalance : ℚ
  totalInvested : ℚ
  sipAmount : Option ℚ
  withdrawalAmount : Option ℚ
  realValue : ℚ
  inflationFactor : ℚ
  lifeEvent : Option AppliedLifeEvent
  deriving DecidableEq, Repr

/-- Accumulator threaded through the per-year life-event `forEach`. -/
structure EventState where
  balance : ℚ
  invested : ℚ
  eventAmount : ℚ
  eventLabel : Option String
  eventType : Option EventType
  deriving DecidableEq, Repr

/-- One iteration of the life-event `forEach`: an addition credits the balance
and the invested total; a withdrawal debits the balance clamped at zero. -/
def applyLifeEvent (s : EventState) (e : LifeEvent) : EventState :=
  match e.type with
  | .addition =>
      { balance := s.balance + e.amount
        invested := s.invested + e.amount
        eventAmount := s.eventAmount + e.amount
        eventLabel := some e.label
        eventType := some e.type }
  | .withdrawal =>
      { balance := max 0 (s.balance - e.amount)
        invested := s.invested
        eventAmount := s.eventAmount - e.amount
        eventLabel := some e.label
        eventType := some e.type }

/-- Apply, in list order, all events scheduled for `year`. -/
def applyLifeEvents (events : List LifeEvent) (year : ℕ) (balance invested : ℚ) :
    EventState :=
  (events.filter (fun e => e.year == year)).foldl applyLifeEvent
    { balance := balance, invested := invested, eventAmount := 0,
      eventLabel := none, eventType := none }

/-- State of the accumulation-phase inner monthly loop. -/
structure AccMonthState where
  balance : ℚ
  yearlyInterest : ℚ
  yearlyContribution : ℚ
  deriving DecidableEq, Repr

/-- One month of the accumulation phase: credit interest, then the SIP. -/
def accMonthStep (monthlyRate sip : ℚ) (s : AccMonthState) : AccMonthState :=
  let interestThisMonth := s.balance * monthlyRate
  { balance := s.balance + interestThisMonth + sip
    yearlyInterest := s.yearlyInterest + interestThisMonth
    yearlyContribution := s.yearlyContribution + sip }

/-- The accumulation monthly loop (`for month = 1..12`), by fuel. -/
def accMonthLoop (monthlyRate sip : ℚ) : ℕ → AccMonthState → AccMonthState
  | 0, s => s
  | n + 1, s => accMonthLoop monthlyRate sip n (accMonthStep monthlyRate sip s)

/-- Parameters of `calculateAccumulationPhase`. -/
structure AccParams where
  initialLumpSum : ℚ
  baseMonthlySIP : ℚ
  annualStepUpPercent : ℚ
  expectedReturnPercent : ℚ
  durationYears : ℕ
  inflationRatePercent : ℚ
  deriving DecidableEq, Repr

/-- Result of the accumulation yearly loop: records plus the running balance
and `totalInvested` accumulators. -/
structure AccLoopOut where
  records : List YearRecord
  balance : ℚ
  totalInvested : ℚ
  deriving DecidableEq, Repr

/-- The accumulation outer loop (`for year = 1..durationYears`): apply
life events, run 12 monthly steps, push the year record, step up the SIP. -/
def accYearLoop (monthlyRate stepUpRate inflationRate : ℚ) (events : List LifeEvent) :
    ℕ → ℕ → ℚ → ℚ → ℚ → AccLoopOut
  | 0, _year, balance, totalInvested, _sip =>
      { records := [], balance := balance, totalInvested := totalInvested }
  | n + 1, year, balance, totalInvested, sip =>
      let ev := applyLifeEvents events year balance totalInvested
      let m := accMonthLoop monthlyRate sip 12
        { balance := ev.balance, yearlyInterest := 0, yearlyContribution := 0 }
      let totalInvested2 := ev.invested + m.yearlyContribution
      let inflationFactor : ℚ := (1 + inflationRate) ^ year
      let yr : YearRecord :=
        { year := year
          phase := .accumulation
          openingBalance := balance
          contribution := m.yearlyContribution
          interestEarned := m.yearlyInterest
          withdrawal := 0
          closingBalance := m.balance
          totalInvested := totalInvested2
          sipAmount := some sip
          withdrawalAmount := none
          realValue := m.balance / inflationFactor
          inflationFactor := inflationFactor
          lifeEvent :=
            if ev.eventAmount ≠ 0 then
              some { amount := ev.eventAmount, label := ev.eventLabel, type := ev.eventType }
            else none }
      let rest := accYearLoop monthlyRate stepUpRate inflationRate events n (year + 1)
        m.balance totalInvested2 (sip * (1 + stepUpRate))
      { records := yr :: rest.records, balance := rest.balance,
        totalInvested := rest.totalInvested }

/-- Summary block of the accumulation result. -/
structure AccSummary where
  totalInvested : ℚ
  finalCorpus : ℚ
  totalGains : ℚ
  inflationAdjustedCorpus : ℚ
  wealthMultiplier : ℚ
  durationYears : ℕ
  deriving DecidableEq, Repr

/-- Return value of `calculateAccumulationPhase`. -/
structure AccResult where
  yearlyData : List YearRecord
  summary : AccSummary
  deriving DecidableEq, Repr

/-- `calculateAccumulationPhase` (Phase 1). -/
def calculateAccumulationPhase (p : AccParams) (lifeEvents : List LifeEvent) : AccResult :=
  let monthlyRate := p.expectedReturnPercent / 100 / 12
  let stepUpRate := p.annualStepUpPercent / 100
  let inflationRate := p.inflationRatePercent / 100
  let out := accYearLoop monthlyRate stepUpRate inflationRate lifeEvents
    p.durationYears 1 p.initialLumpSum p.initialLumpSum p.baseMonthlySIP
  { yearlyData := out.records
    summary :=
      { totalInvested := out.totalInvested
        finalCorpus := out.balance
        totalGains := out.balance - out.totalInvested
        inflationAdjustedCorpus := out.balance / (1 + inflationRate) ^ p.durationYears
        wealthMultiplier :=
          if out.totalInvested > 0 then out.balance / out.totalInvested else 0
        durationYears := p.durationYears } }

/-- Parameters of `calculateDistributionPhase`. -/
structure DistParams where
  initialMonthlyWithdrawal : ℚ
  withdrawalGrowthPercent : ℚ
  ongoingMonthlySIP : ℚ
  sipStepUpPercent : ℚ
  expectedReturnPercent : ℚ
  maxYears : ℕ
  deriving DecidableEq, Repr

/-- State of the distribution-phase inner monthly loop. -/
structure DistMonthState where
  balance : ℚ
  yearlyInterest : ℚ
  yearlyContribution : ℚ
  yearlyWithdrawal : ℚ
  monthsThisYear : ℕ
  deriving DecidableEq, Repr

/-- One month of the distribution phase: credit interest and the SIP, then
debit `min(currentWithdrawal, balance)`; a balance driven to (or below) zero
is stored as exactly zero. -/
def distMonthStep (monthlyRate sip wd : ℚ) (s : DistMonthState) : DistMonthState :=
  let interestThisMonth := s.balance * monthlyRate
  let afterCredit := s.balance + interestThisMonth + sip
  let withdrawalAmount := min wd afterCredit
  let afterDebit := afterCredit - withdrawalAmount
  { balance := if afterDebit ≤ 0 then 0 else afterDebit
    yearlyInterest := s.yearlyInterest + interestThisMonth
    yearlyContribution := s.yearlyContribution + sip
    yearlyWithdrawal := s.yearlyWithdrawal + withdrawalAmount
    monthsThisYear := s.monthsThisYear + 1 }

/-- The distribution monthly loop (`for month = 1..12`) with its two early
exits: entering with a non-positive balance, or the balance hitting zero. -/
def distMonthLoop (monthlyRate sip wd : ℚ) : ℕ → DistMonthState → DistMonthState
  | 0, s => s
  | n + 1, s =>
      if s.balance ≤ 0 then s
      else
        let s2 := distMonthStep monthlyRate sip wd s
        if s2.balance ≤ 0 then s2
        else distMonthLoop monthlyRate sip wd n s2

/-- Result of the distribution yearly loop: records plus the running balance,
`totalWithdrawn`, `totalContributed` and `survivalMonths` accumulators. -/
structure DistLoopOut where
  records : List YearRecord
  balance : ℚ
  totalWithdrawn : ℚ
  totalContributed : ℚ
  survivalMonths : ℕ
  deriving DecidableEq, Repr

/-- The distribution outer loop (`for year = 1..maxYears`): apply life events
at the absolute year, run up to 12 monthly steps, push the year record, stop
if depleted, otherwise grow the withdrawal and step up the SIP. -/
def distYearLoop (monthlyRate withdrawalGrowthRate sipStepUpRate inflationRate : ℚ)
    (events : List LifeEvent) (accumulationYears : ℕ) :
    ℕ → ℕ → ℚ → ℚ → ℚ → ℚ → ℚ → ℕ → DistLoopOut
  | 0, _year, balance, _wd, _sip, totalWithdrawn, totalContributed, survivalMonths =>
      { records := [], balance := balance, totalWithdrawn := totalWithdrawn,
        totalContributed := totalContributed, survivalMonths := survivalMonths }
  | n + 1, year, balance, wd, sip, totalWithdrawn, totalContributed, survivalMonths =>
      let absoluteYear := accumulationYears + year
      let ev := applyLifeEvents events absoluteYear balance totalContributed
      let m := distMonthLoop monthlyRate sip wd 12
        { balance := ev.balance, yearlyInterest := 0, yearlyContribution := 0,
          yearlyWithdrawal := 0, monthsThisYear := 0 }
      let totalWithdrawn2 := totalWithdrawn + m.yearlyWithdrawal
      let totalContributed2 := ev.invested + m.yearlyContribution
      let survivalMonths2 := survivalMonths + m.monthsThisYear
      let inflationFactor : ℚ := (1 + inflationRate) ^ absoluteYear
      let yr : YearRecord :=
        { year := absoluteYear
          phase := .distribution
          openingBalance := balance
          contribution := m.yearlyContribution
          interestEarned := m.yearlyInterest
          withdrawal := m.yearlyWithdrawal
          closingBalance := m.balance
          totalInvested := totalContributed2
          sipAmount := none
          withdrawalAmount := some wd
          realValue := m.balance / inflationFactor
          inflationFactor := inflationFactor
          lifeEvent :=
            if ev.eventAmount ≠ 0 then
              some { amount := ev.eventAmount, label := ev.eventLabel, type := ev.eventType }
            else none }
      if m.balance ≤ 0 then
        { records := [yr], balance := m.balance, totalWithdrawn := totalWithdrawn2,
          totalContributed := totalContributed2, survivalMonths := survivalMonths2 }
      else
        let rest := distYearLoop monthlyRate withdrawalGrowthRate sipStepUpRate inflationRate
          events accumulationYears n (year + 1) m.balance
          (wd * (1 + withdrawalGrowthRate)) (sip * (1 + sipStepUpRate))
          totalWithdrawn2 totalContributed2 survivalMonths2
        { records := yr :: rest.records, balance := rest.balance,
          totalWithdrawn := rest.totalWithdrawn,
          totalContributed := rest.totalContributed,
          survivalMonths := rest.survivalMonths }

/-- The `survivalPeriod` block.  The guard return has no `totalMonths`
field, so it is an `Option`. -/
structure SurvivalPeriod where
  years : ℕ
  months : ℕ
  totalMonths : Option ℕ
  isForever : Bool
  deriving DecidableEq, Repr

/-- The `summary` block of a distribution result. -/
structure DistSummary where
  totalWithdrawn : ℚ
  totalContributed : ℚ
  finalBalance : ℚ
  deriving DecidableEq, Repr

/-- Return value of `calculateDistributionPhase`.  The guard return carries
no `summary` at all, hence the `Option`. -/
structure DistResult where
  yearlyData : List YearRecord
  survivalPeriod : SurvivalPeriod
  summary : Option DistSummary
  deriving DecidableEq, Repr

/-- `calculateDistributionPhase` (Phase 2, systematic withdrawal). -/
def calculateDistributionPhase (p : DistParams) (startingCorpus : ℚ)
    (accumulationYears : ℕ) (inflationRatePercent : ℚ)
    (lifeEvents : List LifeEvent) : DistResult :=
  if startingCorpus ≤ 0 ∨ p.initialMonthlyWithdrawal ≤ 0 then
    { yearlyData := []
      survivalPeriod := { years := 0, months := 0, totalMonths := none, isForever := false }
      summary := none }
  else
    let monthlyRate := p.expectedReturnPercent / 100 / 12
    let withdrawalGrowthRate := p.withdrawalGrowthPercent / 100
    let sipStepUpRate := p.sipStepUpPercent / 100
    let inflationRate := inflationRatePercent / 100
    let out := distYearLoop monthlyRate withdrawalGrowthRate sipStepUpRate inflationRate
      lifeEvents accumulationYears p.maxYears 1 startingCorpus
      p.initialMonthlyWithdrawal p.ongoingMonthlySIP 0 0 0
    { yearlyData := out.records
      survivalPeriod :=
        { years := out.survivalMonths / 12
          months := out.survivalMonths % 12
          totalMonths := some out.survivalMonths
          isForever := decide (0 < out.balance ∧ p.maxYears * 12 ≤ out.survivalMonths) }
      summary := some
        { totalWithdrawn := out.totalWithdrawn
          totalContributed := out.totalContributed
          finalBalance := out.balance } }

/-- Inner monthly compounding step `balance = balance * (1 + monthlyRate) + sip`,
iterated by fuel.  This is the inner loop of both `calculateFutureValue` and
the Monte Carlo engine (the two modules carry textually identical loops). -/
def compoundMonths (monthlyRate sip : ℚ) : ℕ → ℚ → ℚ
  | 0, b => b
  | n + 1, b => compoundMonths monthlyRate sip n (b * (1 + monthlyRate) + sip)

/-- Parameters of `calculateFutureValue`. -/
structure FVParams where
  lumpSum : ℚ
  monthlySIP : ℚ
  stepUpPercent : ℚ
  expectedReturnPercent : ℚ
  years : ℕ
  deriving DecidableEq, Repr

/-- Yearly loop of `calculateFutureValue`: 12 compounding months, then the
SIP step-up. -/
def fvYearLoop (monthlyRate stepUpRate : ℚ) : ℕ → ℚ → ℚ → ℚ
  | 0, b, _sip => b
  | n + 1, b, sip =>
      fvYearLoop monthlyRate stepUpRate n (compoundMonths monthlyRate sip 12 b)
        (sip * (1 + stepUpRate))

/-- `calculateFutureValue`: future value of lump sum + stepped-up SIP. -/
def calculateFutureValue (p : FVParams) : ℚ :=
  fvYearLoop (p.expectedReturnPercent / 100 / 12) (p.stepUpPercent / 100)
    p.years p.lumpSum p.monthlySIP

/-- Parameters of `calculateTargetCorpus`. -/
structure CorpusParams where
  monthlyWithdrawalToday : ℚ
  expectedReturnPercent : ℚ
  inflationPercent : ℚ
  withdrawalGrowthPercent : ℚ
  yearsToRetirement : ℕ
  sustainForever : Bool
  sustainYears : ℕ
  deriving DecidableEq, Repr

/-- Return value of `calculateTargetCorpus`.  The JavaScript `Infinity`
sentinel for `targetCorpus` is modelled by `none`. -/
structure CorpusResult where
  targetCorpus : Option ℚ
  realRatePercent : ℚ
  withdrawalAtRetirement : ℚ
  annualWithdrawal : ℚ
  withdrawalGrowthPercent : ℚ
  sustainForever : Bool
  sustainYears : ℕ
  deriving DecidableEq, Repr

/-- `calculateTargetCorpus`: corpus needed for the requested withdrawals,
via perpetuity / growing-annuity formulas over the rate of return net of
withdrawal growth. -/
def calculateTargetCorpus (p : CorpusParams) : CorpusResult :=
  let nominalReturn := p.expectedReturnPercent / 100
  let withdrawalGrowth := p.withdrawalGrowthPercent / 100
  let realRatePercent := ((1 + nominalReturn) / (1 + withdrawalGrowth) - 1) * 100
  let realRate := realRatePercent / 100
  let inflationRate := p.inflationPercent / 100
  let withdrawalAtRetirement :=
    p.monthlyWithdrawalToday * (1 + inflationRate) ^ p.yearsToRetirement
  let annualWithdrawal := withdrawalAtRetirement * 12
  let targetCorpus : Option ℚ :=
    if p.sustainForever then
      if realRate ≤ 0 then none
      else some (annualWithdrawal / realRate)
    else
      if |realRate| < 1 / 10000 then some (annualWithdrawal * p.sustainYears)
      else some (annualWithdrawal * (1 - (1 + realRate) ^ (-(p.sustainYears : ℤ))) / realRate)
  { targetCorpus := targetCorpus
    realRatePercent := realRatePercent
    withdrawalAtRetirement := withdrawalAtRetirement
    annualWithdrawal := annualWithdrawal
    withdrawalGrowthPercent := p.withdrawalGrowthPercent
    sustainForever := p.sustainForever
    sustainYears := p.sustainYears }

/-- The bisection loop of `calculateRequiredSIP`, by fuel (100 iterations in
the source).  Returns the last midpoint tried together with a flag telling
whether the loop exited through the tolerance break. -/
def bisectLoop (lumpSum stepUpPercent returnPercent : ℚ) (years : ℕ) (target : ℚ) :
    ℕ → ℚ → ℚ → ℚ → ℚ × Bool
  | 0, _low, _high, cur => (cur, false)
  | n + 1, low, high, _cur =>
      let mid := (low + high) / 2
      let futureValue := calculateFutureValue
        { lumpSum := lumpSum, monthlySIP := mid, stepUpPercent := stepUpPercent,
          expectedReturnPercent := returnPercent, years := years }
      if |futureValue - target| < 100 then (mid, true)
      else if futureValue < target then
        bisectLoop lumpSum stepUpPercent returnPercent years target n mid high mid
      else
        bisectLoop lumpSum stepUpPercent returnPercent years target n low mid mid

/-- Parameters of `calculateRequiredSIP` (`targetCorpus = none` models the
`Infinity` sentinel handed over from `calculateTargetCorpus`). -/
structure SIPParams where
  currentLumpSum : ℚ
  targetCorpus : Option ℚ
  expectedReturnPercent : ℚ
  stepUpPercent : ℚ
  yearsToRetirement : ℕ
  deriving DecidableEq, Repr

/-- Return value of `calculateRequiredSIP`; fields that only some branches
of the source attach to the result object are `Option`s, and the
`requiredSIP: Infinity` of the unachievable branch is `none`. -/
structure SIPResult where
  requiredSIP : Option ℚ
  isAchievable : Bool
  surplus : Option ℚ
  projectedCorpus : Option ℚ
  gap : Option ℚ
  lumpSumContribution : Option ℚ
  message : String
  deriving DecidableEq, Repr

/-- `calculateRequiredSIP`: solve for the starting SIP via bisection. -/
def calculateRequiredSIP (p : SIPParams) : SIPResult :=
  match p.targetCorpus with
  | none =>
      { requiredSIP := none, isAchievable := false, surplus := none,
        projectedCorpus := none, gap := none, lumpSumContribution := none,
        message := "Real rate is zero or negative. Perpetual income not possible." }
  | some target =>
      let lumpSumFV := calculateFutureValue
        { lumpSum := p.currentLumpSum, monthlySIP := 0, stepUpPercent := 0,
          expectedReturnPercent := p.expectedReturnPercent, years := p.yearsToRetirement }
      if target ≤ lumpSumFV then
        { requiredSIP := some 0, isAchievable := true,
          surplus := some (lumpSumFV - target), projectedCorpus := none, gap := none,
          lumpSumContribution := none,
          message := "Your current lump sum is sufficient! No additional SIP needed." }
      else
        let out := bisectLoop p.currentLumpSum p.stepUpPercent p.expectedReturnPercent
          p.yearsToRetirement target 100 0 (target / 12) 0
        let verifyFV := calculateFutureValue
          { lumpSum := p.currentLumpSum, monthlySIP := out.1, stepUpPercent := p.stepUpPercent,
            expectedReturnPercent := p.expectedReturnPercent, years := p.yearsToRetirement }
        { requiredSIP := some (⌈out.1⌉ : ℚ), isAchievable := true, surplus := none,
          projectedCorpus := some verifyFV, gap := some (target - lumpSumFV),
          lumpSumContribution := some lumpSumFV,
          message := "SIP calculated successfully" }

/-- One entry of a Monte Carlo run's `yearlyBalances`. -/
structure MCYearRec where
  year : ℕ
  phase : Phase
  balance : ℚ
  annualReturn : ℚ
  deriving DecidableEq, Repr

/-- Monte Carlo accumulation loop.  Year index `i` is 0-based; the drawn
annual return for that year is `draws i`, and the monthly rate applied is
`max 0 (draws i) / 12` exactly as in the source. -/
def mcAccPhase (stepUpRate : ℚ) (draws : ℕ → ℚ) :
    ℕ → ℕ → ℚ → ℚ → List MCYearRec × ℚ
  | 0, _i, b, _sip => ([], b)
  | n + 1, i, b, sip =>
      let annualReturn := draws i
      let monthlyRate := max 0 annualReturn / 12
      let b2 := compoundMonths monthlyRate sip 12 b
      let rest := mcAccPhase stepUpRate draws n (i + 1) b2 (sip * (1 + stepUpRate))
      (⟨i + 1, .accumulation, b2, annualReturn * 100⟩ :: rest.1, rest.2)

/-- Monte Carlo distribution monthly loop: returns the balance after at most
`fuel` months together with the `survived` flag (false as soon as the balance
hits zero, which is then stored as exactly zero). -/
def mcDistMonths (monthlyRate sip wd : ℚ) : ℕ → ℚ → ℚ × Bool
  | 0, b => (b, true)
  | n + 1, b =>
      if b ≤ 0 then (b, false)
      else
        let b2 := b * (1 + monthlyRate) + sip - wd
        if b2 ≤ 0 then (0, false)
        else mcDistMonths monthlyRate sip wd n b2

/-- Monte Carlo distribution loop.  `j` counts completed distribution years;
the drawn annual return for a year is `draws (durationYears + j)` and the
monthly rate applied is `draws (durationYears + j) / 12`, with no floor.
Returns (records, final balance, survivalYears, survived). -/
def mcDistPhase (withdrawalGrowthRate sipStepUpRate : ℚ) (durationYears : ℕ)
    (draws : ℕ → ℚ) : ℕ → ℕ → ℚ → ℚ → ℚ → List MCYearRec × ℚ × ℕ × Bool
  | 0, j, b, _wd, _sip => ([], b, j, true)
  | n + 1, j, b, wd, sip =>
      let annualReturn := draws (durationYears + j)
      let monthlyRate := annualReturn / 12
      let mm := mcDistMonths monthlyRate sip wd 12 b
      let yr : MCYearRec :=
        ⟨durationYears + j + 1, .distribution, max 0 mm.1, annualReturn * 100⟩
      if mm.2 then
        let rest := mcDistPhase withdrawalGrowthRate sipStepUpRate durationYears draws
          n (j + 1) mm.1 (wd * (1 + withdrawalGrowthRate)) (sip * (1 + sipStepUpRate))
        (yr :: rest.1, rest.2)
      else
        ([yr], mm.1, j, false)

/-- Result of one Monte Carlo run (`runSingleSimulation`). -/
structure MCRunResult where
  yearlyBalances : List MCYearRec
  corpusAtRetirement : ℚ
  finalBalance : ℚ
  survivalYears : ℕ
  survived : Bool
  targetYears : ℕ
  deriving DecidableEq, Repr

/-- `runSingleSimulation`, parametrized by the sequence of sampled annual
returns `draws` (the values produced by the Box–Muller sampler, consumed one
per simulated year, accumulation years first). -/
def runSingleSimulation (accP : AccParams) (distP : DistParams)
    (targetSurvivalYears : ℕ) (draws : ℕ → ℚ) : MCRunResult :=
  let stepUpRate := accP.annualStepUpPercent / 100
  let withdrawalGrowthRate := distP.withdrawalGrowthPercent / 100
  let distSipStepUpRate := distP.sipStepUpPercent / 100
  let acc := mcAccPhase stepUpRate draws accP.durationYears 0
    accP.initialLumpSum accP.baseMonthlySIP
  let dist := mcDistPhase withdrawalGrowthRate distSipStepUpRate accP.durationYears draws
    targetSurvivalYears 0 acc.2 distP.initialMonthlyWithdrawal distP.ongoingMonthlySIP
  { yearlyBalances := acc.1 ++ dist.1
    corpusAtRetirement := acc.2
    finalBalance := dist.2.1
    survivalYears := dist.2.2.1
    survived := dist.2.2.2 && decide (0 < dist.2.1)
    targetYears := targetSurvivalYears }

/-- Modelled from the spec: the Monte Carlo accumulation loop with the
per-year monthly rate supplied externally ("derive a monthly rate as
max(0, annualReturn)/12"); used to state which rate schedule the concrete
engine instantiates. -/
def mcAccPhaseR (stepUpRate : ℚ) (draws rates : ℕ → ℚ) :
    ℕ → ℕ → ℚ → ℚ → List MCYearRec × ℚ
  | 0, _i, b, _sip => ([], b)
  | n + 1, i, b, sip =>
      let annualReturn := draws i
      let monthlyRate := rates i
      let b2 := compoundMonths monthlyRate sip 12 b
      let rest := mcAccPhaseR stepUpRate draws rates n (i + 1) b2 (sip * (1 + stepUpRate))
      (⟨i + 1, .accumulation, b2, annualReturn * 100⟩ :: rest.1, rest.2)

/-- Modelled from the spec: the Monte Carlo distribution loop with the
per-year monthly rate supplied externally ("draw a fresh annualReturn the
same way but WITHOUT the floor"). -/
def mcDistPhaseR (withdrawalGrowthRate sipStepUpRate : ℚ) (durationYears : ℕ)
    (draws rates : ℕ → ℚ) : ℕ → ℕ → ℚ → ℚ → ℚ → List MCYearRec × ℚ × ℕ × Bool
  | 0, j, b, _wd, _sip => ([], b, j, true)
  | n + 1, j, b, wd, sip =>
      let annualReturn := draws (durationYears + j)
      let monthlyRate := rates j
      let mm := mcDistMonths monthlyRate sip wd 12 b
      let yr : MCYearRec :=
        ⟨durationYears + j + 1, .distribution, max 0 mm.1, annualReturn * 100⟩
      if mm.2 then
        let rest := mcDistPhaseR withdrawalGrowthRate sipStepUpRate durationYears draws rates
          n (j + 1) mm.1 (wd * (1 + withdrawalGrowthRate)) (sip * (1 + sipStepUpRate))
        (yr :: rest.1, rest.2)
      else
        ([yr], mm.1, j, false)

/-- Modelled from the spec: `runSingleSimulation` with both monthly-rate
schedules supplied externally. -/
def runSingleWithRates (accP : AccParams) (distP : DistParams)
    (targetSurvivalYears : ℕ) (draws accRates distRates : ℕ → ℚ) : MCRunResult :=
  let stepUpRate := accP.annualStepUpPercent / 100
  let withdrawalGrowthRate := distP.withdrawalGrowthPercent / 100
  let distSipStepUpRate := distP.sipStepUpPercent / 100
  let acc := mcAccPhaseR stepUpRate draws accRates accP.durationYears 0
    accP.initialLumpSum accP.baseMonthlySIP
  let dist := mcDistPhaseR withdrawalGrowthRate distSipStepUpRate accP.durationYears draws
    distRates targetSurvivalYears 0 acc.2 distP.initialMonthlyWithdrawal distP.ongoingMonthlySIP
  { yearlyBalances := acc.1 ++ dist.1
    corpusAtRetirement := acc.2
    finalBalance := dist.2.1
    survivalYears := dist.2.2.1
    survived := dist.2.2.2 && decide (0 < dist.2.1)
    targetYears := targetSurvivalYears }

/-- One per-year percentile band of the Monte Carlo aggregate. -/
structure MCBand where
  year : ℕ
  phase : Phase
  p10 : ℚ
  p25 : ℚ
  p50 : ℚ
  p75 : ℚ
  p90 : ℚ
  min : ℚ
  max : ℚ
  deriving DecidableEq, Repr

/-- Per-year percentile extraction: collect each run's balance at `yearIdx`
(0 when the run has no record there), sort ascending, and read off the order
statistics at indices `floor(n*q)`. -/
def mcBands (durationYears numSimulations totalYears : ℕ)
    (results : List MCRunResult) : List MCBand :=
  (List.range totalYears).map (fun yearIdx =>
    let vals := results.map (fun r =>
      match r.yearlyBalances.get? yearIdx with
      | some rec => rec.balance
      | none => 0)
    let sorted := List.insertionSort (· ≤ ·) vals
    let yearNum := yearIdx + 1
    { year := yearNum
      phase := if yearNum ≤ durationYears then .accumulation else .distribution
      p10 := sorted.getD (numSimulations / 10) 0
      p25 := sorted.getD (numSimulations / 4) 0
      p50 := sorted.getD (numSimulations / 2) 0
      p75 := sorted.getD (numSimulations * 3 / 4) 0
      p90 := sorted.getD (numSimulations * 9 / 10) 0
      min := sorted.getD 0 0
      max := sorted.getD (numSimulations - 1) 0 })

/-- Corpus-at-retirement percentile block. -/
structure MCCorpusStats where
  p10 : ℚ
  p50 : ℚ
  p90 : ℚ
  deriving DecidableEq, Repr

/-- The Monte Carlo aggregate (`runMonteCarloSimulation`'s return value). -/
structure MCAggregate where
  successRate : ℚ
  numSimulations : ℕ
  successfulRuns : ℕ
  failedRuns : ℕ
  targetSurvivalYears : ℕ
  avgFailedSurvival : ℚ
  percentileData : List MCBand
  corpusStats : MCCorpusStats
  volatility : ℚ
  deriving DecidableEq, Repr

/-- `runMonteCarloSimulation`, parametrized by the matrix of sampled annual
returns (`draws i` is the return sequence of run `i`). -/
def runMonteCarloSimulation (accP : AccParams) (distP : DistParams)
    (numSimulations : ℕ) (volatility : ℚ) (targetSurvivalYears : ℕ)
    (draws : ℕ → ℕ → ℚ) : MCAggregate :=
  let results := (List.range numSimulations).map (fun i =>
    runSingleSimulation accP distP targetSurvivalYears (draws i))
  let successfulRuns := (results.filter (fun r => r.survived)).length
  let successRate := ((successfulRuns : ℚ) / (numSimulations : ℚ)) * 100
  let totalYears := accP.durationYears + targetSurvivalYears
  let failed := results.filter (fun r => !r.survived)
  let avgFailedSurvival : ℚ :=
    if 0 < failed.length then
      (failed.map (fun r => (r.survivalYears : ℚ))).sum / (failed.length : ℚ)
    else (targetSurvivalYears : ℚ)
  let corpusValues := List.insertionSort (· ≤ ·) (results.map (fun r => r.corpusAtRetirement))
  { successRate := successRate
    numSimulations := numSimulations
    successfulRuns := successfulRuns
    failedRuns := numSimulations - successfulRuns
    targetSurvivalYears := targetSurvivalYears
    avgFailedSurvival := (⌊avgFailedSurvival * 10 + 1 / 2⌋ : ℚ) / 10
    percentileData := mcBands accP.durationYears numSimulations totalYears results
    corpusStats :=
      { p10 := corpusValues.getD (numSimulations / 10) 0
        p50 := corpusValues.getD (numSimulations / 2) 0
        p90 := corpusValues.getD (numSimulations * 9 / 10) 0 }
    volatility := volatility * 100 }

/-- Concrete accumulation parameters used to witness theorems on sample
inputs. -/
def wAccParams : AccParams :=
  { initialLumpSum := 1000, baseMonthlySIP := 100, annualStepUpPercent := 0,
    expectedReturnPercent := 0, durationYears := 2, inflationRatePercent := 0 }

/-- Concrete distribution parameters used to witness theorems on sample
inputs. -/
def wDistParams : DistParams :=
  { initialMonthlyWithdrawal := 1, withdrawalGrowthPercent := 0, ongoingMonthlySIP := 0,
    sipStepUpPercent := 0, expectedReturnPercent := 0, maxYears := 2 }

/-- Concrete withdrawal life event used to witness theorems on sample
inputs. -/
def wEvent : LifeEvent :=
  { year := 1, amount := 5000, type := EventType.withdrawal, label := "w" }

/-- Concrete second-year withdrawal life event, large enough to shrink the
corpus. -/
def wEvent2 : LifeEvent :=
  { year := 2, amount := 5000, type := EventType.withdrawal, label := "w2" }

/-- Concrete goal-solver corpus parameters whose net real rate is zero. -/
def wCorpusParams : CorpusParams :=
  { monthlyWithdrawalToday := 100, expectedReturnPercent := 8, inflationPercent := 6,
    withdrawalGrowthPercent := 8, yearsToRetirement := 10, sustainForever := true,
    sustainYears := 30 }

/-- Concrete goal-solver corpus parameters with a positive net real rate. -/
def wCorpusParamsPos : CorpusParams :=
  { monthlyWithdrawalToday := 100, expectedReturnPercent := 10, inflationPercent := 6,
    withdrawalGrowthPercent := 0, yearsToRetirement := 10, sustainForever := true,
    sustainYears := 30 }

/-- Concrete required-SIP parameters carrying the infinite-target sentinel. -/
def wSIPParamsInf : SIPParams :=
  { currentLumpSum := 1000, targetCorpus := none, expectedReturnPercent := 12,
    stepUpPercent := 0, yearsToRetirement := 10 }

/-- Concrete required-SIP parameters on which the bisection search converges
(zero rate, one year, target 120). -/
def wGoalParams : SIPParams :=
  { currentLumpSum := 0, targetCorpus := some 120, expectedReturnPercent := 0,
    stepUpPercent := 0, yearsToRetirement := 1 }

section Lemmas

/-- The accumulation monthly loop conserves balance minus accrued interest
and contribution sums. -/
lemma accMonthLoop_conserve (r sip : ℚ) :
    ∀ (n : ℕ) (s : AccMonthState),
      (accMonthLoop r sip n s).balance - (accMonthLoop r sip n s).yearlyInterest -
          (accMonthLoop r sip n s).yearlyContribution =
        s.balance - s.yearlyInterest - s.yearlyContribution := by
  intro n
  induction n with
  | zero => intro s; simp [accMonthLoop]
  | succ k ih =>
      intro s
      rw [accMonthLoop, ih]
      simp only [accMonthStep]
      ring

/-- The accumulation monthly loop never decreases a non-negative balance
when the rate and the contribution are non-negative. -/
lemma accMonthLoop_le (r sip : ℚ) (hr : 0 ≤ r) (hsip : 0 ≤ sip) :
    ∀ (n : ℕ) (s : AccMonthState), 0 ≤ s.balance →
      s.balance ≤ (accMonthLoop r sip n s).balance := by
  intro n
  induction n with
  | zero => intro s _; simp [accMonthLoop]
  | succ k ih =>
      intro s hs
      rw [accMonthLoop]
      have hmul : 0 ≤ s.balance * r := mul_nonneg hs hr
      have hstep : s.balance ≤ (accMonthStep r sip s).balance := by
        simp only [accMonthStep]; linarith
      exact le_trans hstep (ih _ (le_trans hs hstep))

/-- Applying any list of events with non-negative amounts keeps the balance
non-negative. -/
lemma foldl_applyLifeEvent_nonneg :
    ∀ (l : List LifeEvent) (s : EventState),
      (∀ e ∈ l, 0 ≤ e.amount) → 0 ≤ s.balance →
      0 ≤ (l.foldl applyLifeEvent s).balance := by
  intro l
  induction l with
  | nil => intro s _ hs; simpa using hs
  | cons e t ih =>
      intro s hall hs
      rw [List.foldl_cons]
      refine ih _ (fun x hx => hall x (List.mem_cons_of_mem _ hx)) ?_
      have ha : 0 ≤ e.amount := hall e (List.mem_cons_self _ _)
      cases he : e.type with
      | addition => simp only [applyLifeEvent, he]; linarith
      | withdrawal => simp only [applyLifeEvent, he]; exact le_max_left _ _

/-- Applying a list made only of additions with non-negative amounts never
decreases the balance. -/
lemma foldl_applyLifeEvent_le :
    ∀ (l : List LifeEvent) (s : EventState),
      (∀ e ∈ l, e.type = EventType.addition ∧ 0 ≤ e.amount) →
      s.balance ≤ (l.foldl applyLifeEvent s).balance := by
  intro l
  induction l with
  | nil => intro s _; simp
  | cons e t ih =>
      intro s hall
      rw [List.foldl_cons]
      have he := hall e (List.mem_cons_self _ _)
      have hstep : s.balance ≤ (applyLifeEvent s e).balance := by
        simp [applyLifeEvent, he.1]
        linarith [he.2]
      exact le_trans hstep (ih _ (fun x hx => hall x (List.mem_cons_of_mem _ hx)))

/-- `applyLifeEvents` with non-negative event amounts keeps the balance
non-negative. -/
lemma applyLifeEvents_nonneg (evs : List LifeEvent) (y : ℕ) (b ti : ℚ)
    (h : ∀ e ∈ evs, 0 ≤ e.amount) (hb : 0 ≤ b) :
    0 ≤ (applyLifeEvents evs y b ti).balance := by
  refine foldl_applyLifeEvent_nonneg _ _ (fun e he => h e (List.mem_of_mem_filter he)) ?_
  simpa using hb

/-- `applyLifeEvents` over additions with non-negative amounts never
decreases the balance. -/
lemma applyLifeEvents_le (evs : List LifeEvent) (y : ℕ) (b ti : ℚ)
    (h : ∀ e ∈ evs, e.type = EventType.addition ∧ 0 ≤ e.amount) :
    b ≤ (applyLifeEvents evs y b ti).balance := by
  have := foldl_applyLifeEvent_le (evs.filter (fun e => e.year == y))
    { balance := b, invested := ti, eventAmount := 0, eventLabel := none, eventType := none }
    (fun e he => h e (List.mem_of_mem_filter he))
  simpa [applyLifeEvents] using this

/-- When no event is scheduled for `y`, `applyLifeEvents` is the identity on
balance and invested totals. -/
lemma applyLifeEvents_filter_nil (evs : List LifeEvent) (y : ℕ) (b ti : ℚ)
    (h : evs.filter (fun e => e.year == y) = []) :
    applyLifeEvents evs y b ti =
      { balance := b, invested := ti, eventAmount := 0, eventLabel := none, eventType := none } := by
  simp [applyLifeEvents, h]

/-- The stored balance of a distribution month step is exactly the credited
balance minus the clamped withdrawal (the zero-floor assignment never loses
value, because the withdrawal is clamped to the available balance). -/
lemma distMonthStep_balance (r sip wd : ℚ) (s : DistMonthState) :
    (distMonthStep r sip wd s).balance =
      s.balance + s.balance * r + sip -
        min wd (s.balance + s.balance * r + sip) := by
  have h0 : 0 ≤ s.balance + s.balance * r + sip -
      min wd (s.balance + s.balance * r + sip) :=
    sub_nonneg.mpr (min_le_right _ _)
  simp only [distMonthStep]
  split_ifs with h
  · linarith
  · rfl

/-- A distribution month step conserves balance minus interest minus
contribution plus withdrawal. -/
lemma distMonthStep_conserve (r sip wd : ℚ) (s : DistMonthState) :
    (distMonthStep r sip wd s).balance - (distMonthStep r sip wd s).yearlyInterest -
        (distMonthStep r sip wd s).yearlyContribution +
        (distMonthStep r sip wd s).yearlyWithdrawal =
      s.balance - s.yearlyInterest - s.yearlyContribution + s.yearlyWithdrawal := by
  have hb := distMonthStep_balance r sip wd s
  have h1 : (distMonthStep r sip wd s).yearlyInterest =
      s.yearlyInterest + s.balance * r := rfl
  have h2 : (distMonthStep r sip wd s).yearlyContribution =
      s.yearlyContribution + sip := rfl
  have h3 : (distMonthStep r sip wd s).yearlyWithdrawal =
      s.yearlyWithdrawal + min wd (s.balance + s.balance * r + sip) := rfl
  rw [hb, h1, h2, h3]
  ring

/-- The distribution monthly loop conserves balance minus interest minus
contribution plus withdrawal. -/
lemma distMonthLoop_conserve (r sip wd : ℚ) :
    ∀ (n : ℕ) (s : DistMonthState),
      (distMonthLoop r sip wd n s).balance - (distMonthLoop r sip wd n s).yearlyInterest -
          (distMonthLoop r sip wd n s).yearlyContribution +
          (distMonthLoop r sip wd n s).yearlyWithdrawal =
        s.balance - s.yearlyInterest - s.yearlyContribution + s.yearlyWithdrawal := by
  intro n
  induction n with
  | zero => intro s; simp [distMonthLoop]
  | succ k ih =>
      intro s
      rw [distMonthLoop]
      by_cases h1 : s.balance ≤ 0
      · simp only [if_pos h1]
      · simp only [if_neg h1]
        by_cases h2 : (distMonthStep r sip wd s).balance ≤ 0
        · simp only [if_pos h2]
          exact distMonthStep_conserve r sip wd s
        · simp only [if_neg h2]
          rw [ih]
          exact distMonthStep_conserve r sip wd s

/-- The distribution monthly loop keeps a non-negative balance non-negative. -/
lemma distMonthLoop_nonneg (r sip wd : ℚ) :
    ∀ (n : ℕ) (s : DistMonthState), 0 ≤ s.balance →
      0 ≤ (distMonthLoop r sip wd n s).balance := by
  intro n
  induction n with
  | zero => intro s hs; simpa [distMonthLoop] using hs
  | succ k ih =>
      intro s hs
      rw [distMonthLoop]
      have hstep : 0 ≤ (distMonthStep r sip wd s).balance := by
        simp only [distMonthStep]
        split_ifs with h
        · exact le_rfl
        · push_neg at h; linarith
      by_cases h1 : s.balance ≤ 0
      · simp only [if_pos h1]; exact hs
      · simp only [if_neg h1]
        by_cases h2 : (distMonthStep r sip wd s).balance ≤ 0
        · simp only [if_pos h2]; exact hstep
        · simp only [if_neg h2]; exact ih _ hstep

/-- Per-record conservation for the accumulation yearly loop: in a year with
no scheduled event the closing balance is opening + interest + contribution. -/
lemma accYearLoop_records_conserve (mr su ir : ℚ) (evs : List LifeEvent) :
    ∀ (n year : ℕ) (b ti sip : ℚ),
      ∀ rec ∈ (accYearLoop mr su ir evs n year b ti sip).records,
        evs.filter (fun e => e.year == rec.year) = [] →
        rec.closingBalance = rec.openingBalance + rec.interestEarned + rec.contribution := by
  intro n
  induction n with
  | zero =>
      intro year b ti sip rec hrec
      exact absurd hrec (by simp [accYearLoop])
  | succ k ih =>
      intro year b ti sip rec hrec hf
      simp only [accYearLoop, List.mem_cons] at hrec
      rcases hrec with hrec | hrec
      · subst hrec
        simp only at hf ⊢
        have hev := applyLifeEvents_filter_nil evs year b ti hf
        rw [hev]
        have hc := accMonthLoop_conserve mr sip 12
          { balance := b, yearlyInterest := 0, yearlyContribution := 0 }
        simp only at hc
        linarith
      · exact ih _ _ _ _ rec hrec hf

/-- Per-record non-negativity for the accumulation yearly loop. -/
lemma accYearLoop_records_nonneg (mr su ir : ℚ) (evs : List LifeEvent)
    (hmr : 0 ≤ mr) (hsu : 0 ≤ su) (hev : ∀ e ∈ evs, 0 ≤ e.amount) :
    ∀ (n year : ℕ) (b ti sip : ℚ), 0 ≤ b → 0 ≤ sip →
      ∀ rec ∈ (accYearLoop mr su ir evs n year b ti sip).records,
        0 ≤ rec.closingBalance := by
  intro n
  induction n with
  | zero =>
      intro year b ti sip _ _ rec hrec
      exact absurd hrec (by simp [accYearLoop])
  | succ k ih =>
      intro year b ti sip hb hsip rec hrec
      have hevb : 0 ≤ (applyLifeEvents evs year b ti).balance :=
        applyLifeEvents_nonneg evs year b ti hev hb
      have hm : 0 ≤ (accMonthLoop mr sip 12
          { balance := (applyLifeEvents evs year b ti).balance, yearlyInterest := 0,
            yearlyContribution := 0 }).balance := by
        refine le_trans hevb (accMonthLoop_le mr sip hmr hsip 12 _ ?_)
        simpa using hevb
      simp only [accYearLoop, List.mem_cons] at hrec
      rcases hrec with hrec | hrec
      · subst hrec
        simpa using hm
      · exact ih _ _ _ _ hm (mul_nonneg hsip (by linarith)) rec hrec

/-- Closing balances of the accumulation yearly loop form a chain that is
non-decreasing from the starting balance, provided the rate, the SIP, the
step-up and all event amounts are non-negative and every event is an
addition. -/
lemma accYearLoop_chain (mr su ir : ℚ) (evs : List LifeEvent)
    (hmr : 0 ≤ mr) (hsu : 0 ≤ su)
    (hev : ∀ e ∈ evs, e.type = EventType.addition ∧ 0 ≤ e.amount) :
    ∀ (n year : ℕ) (b ti sip : ℚ), 0 ≤ b → 0 ≤ sip →
      List.Chain (· ≤ ·) b
        ((accYearLoop mr su ir evs n year b ti sip).records.map
          (fun r => r.closingBalance)) := by
  intro n
  induction n with
  | zero =>
      intro year b ti sip _ _
      simp only [accYearLoop]
      exact List.Chain.nil
  | succ k ih =>
      intro year b ti sip hb hsip
      have hevb : b ≤ (applyLifeEvents evs year b ti).balance :=
        applyLifeEvents_le evs year b ti hev
      have hm : b ≤ (accMonthLoop mr sip 12
          { balance := (applyLifeEvents evs year b ti).balance, yearlyInterest := 0,
            yearlyContribution := 0 }).balance := by
        refine le_trans hevb (accMonthLoop_le mr sip hmr hsip 12 _ ?_)
        simpa using le_trans hb hevb
      simp only [accYearLoop, List.map_cons]
      exact List.Chain.cons hm
        (ih _ _ _ _ (le_trans hb hm) (mul_nonneg hsip (by linarith)))

/-- Per-record conservation for the distribution yearly loop: in a year with
no scheduled event the closing balance is opening + interest + contribution
− withdrawal. -/
lemma distYearLoop_records_conserve (mr wg ss ir : ℚ) (evs : List LifeEvent) (ay : ℕ) :
    ∀ (n year : ℕ) (b wd sip tw tc : ℚ) (sm : ℕ),
      ∀ rec ∈ (distYearLoop mr wg ss ir evs ay n year b wd sip tw tc sm).records,
        evs.filter (fun e => e.year == rec.year) = [] →
        rec.closingBalance =
          rec.openingBalance + rec.interestEarned + rec.contribution - rec.withdrawal := by
  intro n
  induction n with
  | zero =>
      intro year b wd sip tw tc sm rec hrec
      exact absurd hrec (by simp [distYearLoop])
  | succ k ih =>
      intro year b wd sip tw tc sm rec hrec hf
      simp only [distYearLoop] at hrec
      by_cases hbal : (distMonthLoop mr sip wd 12
          { balance := (applyLifeEvents evs (ay + year) b tc).balance, yearlyInterest := 0,
            yearlyContribution := 0, yearlyWithdrawal := 0, monthsThisYear := 0 }).balance ≤ 0
      · rw [if_pos hbal] at hrec
        simp only [List.mem_singleton] at hrec
        subst hrec
        simp only at hf ⊢
        have hevst := applyLifeEvents_filter_nil evs (ay + year) b tc hf
        rw [hevst]
        have hc := distMonthLoop_conserve mr sip wd 12
          { balance := b, yearlyInterest := 0, yearlyContribution := 0,
            yearlyWithdrawal := 0, monthsThisYear := 0 }
        simp only at hc
        linarith
      · rw [if_neg hbal] at hrec
        simp only [List.mem_cons] at hrec
        rcases hrec with hrec | hrec
        · subst hrec
          simp only at hf ⊢
          have hevst := applyLifeEvents_filter_nil evs (ay + year) b tc hf
          rw [hevst]
          have hc := distMonthLoop_conserve mr sip wd 12
            { balance := b, yearlyInterest := 0, yearlyContribution := 0,
              yearlyWithdrawal := 0, monthsThisYear := 0 }
          simp only at hc
          linarith
        · exact ih _ _ _ _ _ _ _ rec hrec hf

/-- Per-record non-negativity for the distribution yearly loop. -/
lemma distYearLoop_records_nonneg (mr wg ss ir : ℚ) (evs : List LifeEvent) (ay : ℕ)
    (hev : ∀ e ∈ evs, 0 ≤ e.amount) :
    ∀ (n year : ℕ) (b wd sip tw tc : ℚ) (sm : ℕ), 0 ≤ b →
      ∀ rec ∈ (distYearLoop mr wg ss ir evs ay n year b wd sip tw tc sm).records,
        0 ≤ rec.closingBalance := by
  intro n
  induction n with
  | zero =>
      intro year b wd sip tw tc sm _ rec hrec
      exact absurd hrec (by simp [distYearLoop])
  | succ k ih =>
      intro year b wd sip tw tc sm hb rec hrec
      have hm : 0 ≤ (distMonthLoop mr sip wd 12
          { balance := (applyLifeEvents evs (ay + year) b tc).balance, yearlyInterest := 0,
            yearlyContribution := 0, yearlyWithdrawal := 0, monthsThisYear := 0 }).balance := by
        refine distMonthLoop_nonneg mr sip wd 12 _ ?_
        simpa using applyLifeEvents_nonneg evs (ay + year) b tc hev hb
      simp only [distYearLoop] at hrec
      by_cases hbal : (distMonthLoop mr sip wd 12
          { balance := (applyLifeEvents evs (ay + year) b tc).balance, yearlyInterest := 0,
            yearlyContribution := 0, yearlyWithdrawal := 0, monthsThisYear := 0 }).balance ≤ 0
      · rw [if_pos hbal] at hrec
        simp only [List.mem_singleton] at hrec
        subst hrec
        simpa using hm
      · rw [if_neg hbal] at hrec
        simp only [List.mem_cons] at hrec
        rcases hrec with hrec | hrec
        · subst hrec
          simpa using hm
        · exact ih _ _ _ _ _ _ _ hm rec hrec

/-- Every record of the distribution yearly loop, except possibly the last
one, closes with a strictly positive balance (as a `Chain'`): the loop only
continues past a year whose closing balance is positive. -/
lemma distYearLoop_chain_pos (mr wg ss ir : ℚ) (evs : List LifeEvent) (ay : ℕ) :
    ∀ (n year : ℕ) (b wd sip tw tc : ℚ) (sm : ℕ),
      List.Chain' (fun a _ => 0 < a.closingBalance)
        (distYearLoop mr wg ss ir evs ay n year b wd sip tw tc sm).records := by
  intro n
  induction n with
  | zero =>
      intro year b wd sip tw tc sm
      simp only [distYearLoop]
      exact List.chain'_nil
  | succ k ih =>
      intro year b wd sip tw tc sm
      simp only [distYearLoop]
      by_cases hbal : (distMonthLoop mr sip wd 12
          { balance := (applyLifeEvents evs (ay + year) b tc).balance, yearlyInterest := 0,
            yearlyContribution := 0, yearlyWithdrawal := 0, monthsThisYear := 0 }).balance ≤ 0
      · rw [if_pos hbal]
        exact List.chain'_singleton _
      · rw [if_neg hbal]
        push_neg at hbal
        refine List.chain'_cons'.mpr ⟨fun _ _ => ?_, ih _ _ _ _ _ _ _⟩
        simpa using hbal

/-- Bridge: a `Chain'` relation that only constrains the left element holds
for every member of `dropLast`. -/
lemma mem_dropLast_of_chain' {α : Type} (P : α → Prop) :
    ∀ (l : List α), List.Chain' (fun a _ => P a) l → ∀ x ∈ l.dropLast, P x := by
  intro l
  induction l with
  | nil => intro _ x hx; exact absurd hx (by simp)
  | cons a t ih =>
      intro hc x hx
      cases t with
      | nil => exact absurd hx (by simp)
      | cons b u =>
          rw [List.dropLast_cons₂] at hx
          rcases List.mem_cons.mp hx with hx | hx
          · subst hx
            exact (List.chain'_cons'.mp hc).1 b rfl
          · exact ih (List.chain'_cons'.mp hc).2 x hx

end Lemmas

/-- C1: every accumulation month satisfies `balance' = balance + interest +
contribution` and every distribution month satisfies `balance' = balance +
interest + contribution − withdrawal` (with the withdrawal clamped to the
available balance), exactly; consequently, every simulated year with no
scheduled cash event satisfies `closingBalance = openingBalance +
interestEarned + contribution − withdrawal` (with `withdrawal = 0` in
accumulation records). -/
theorem monthly_conservation_identity :
    (∀ (rate sip : ℚ) (s : AccMonthState),
        (accMonthStep rate sip s).balance =
          s.balance + ((accMonthStep rate sip s).yearlyInterest - s.yearlyInterest) +
            ((accMonthStep rate sip s).yearlyContribution - s.yearlyContribution)) ∧
    (∀ (rate sip wd : ℚ) (s : DistMonthState),
        (distMonthStep rate sip wd s).balance =
          s.balance + ((distMonthStep rate sip wd s).yearlyInterest - s.yearlyInterest) +
            ((distMonthStep rate sip wd s).yearlyContribution - s.yearlyContribution) -
            ((distMonthStep rate sip wd s).yearlyWithdrawal - s.yearlyWithdrawal)) ∧
    (∀ (p : AccParams) (evs : List LifeEvent),
        ∀ rec ∈ (calculateAccumulationPhase p evs).yearlyData,
          evs.filter (fun e => e.year == rec.year) = [] →
          rec.closingBalance = rec.openingBalance + rec.interestEarned + rec.contribution) ∧
    (∀ (dp : DistParams) (corpus : ℚ) (ay : ℕ) (infl : ℚ) (evs : List LifeEvent),
        ∀ rec ∈ (calculateDistributionPhase dp corpus ay infl evs).yearlyData,
          evs.filter (fun e => e.year == rec.year) = [] →
          rec.closingBalance =
            rec.openingBalance + rec.interestEarned + rec.contribution - rec.withdrawal) := by
  refine ⟨?_, ?_, ?_, ?_⟩
  · intro rate sip s
    simp only [accMonthStep]
    ring
  · intro rate sip wd s
    have hc := distMonthStep_conserve rate sip wd s
    linarith
  · intro p evs rec hrec hf
    simp only [calculateAccumulationPhase] at hrec
    exact accYearLoop_records_conserve _ _ _ _ _ _ _ _ _ rec hrec hf
  · intro dp corpus ay infl evs rec hrec hf
    by_cases hg : corpus ≤ 0 ∨ dp.initialMonthlyWithdrawal ≤ 0
    · rw [calculateDistributionPhase, if_pos hg] at hrec
      exact absurd hrec (by simp)
    · rw [calculateDistributionPhase, if_neg hg] at hrec
      exact distYearLoop_records_conserve _ _ _ _ _ _ _ _ _ _ _ _ _ _ rec hrec hf

/-- Length facts about the concrete witness runs, proved by evaluation. -/
lemma wAccLen : 0 < (calculateAccumulationPhase wAccParams []).yearlyData.length := by
  norm_num [calculateAccumulationPhase, wAccParams, accYearLoop, accMonthLoop,
    accMonthStep, applyLifeEvents]

/-- Length fact about the concrete accumulation run with a withdrawal event. -/
lemma wAccEvLen : 0 < (calculateAccumulationPhase wAccParams [wEvent]).yearlyData.length := by
  norm_num [calculateAccumulationPhase, wAccParams, wEvent, accYearLoop, accMonthLoop,
    accMonthStep, applyLifeEvents, applyLifeEvent]

/-- Length fact about the concrete distribution run. -/
lemma wDistLen : 0 < (calculateDistributionPhase wDistParams 100 0 0 []).yearlyData.length := by
  norm_num [calculateDistributionPhase, wDistParams, distYearLoop, distMonthLoop,
    distMonthStep, applyLifeEvents]

/-- Length fact about the concrete distribution run's `dropLast`. -/
lemma wDistDropLen :
    0 < (calculateDistributionPhase wDistParams 100 0 0 []).yearlyData.dropLast.length := by
  norm_num [calculateDistributionPhase, wDistParams, distYearLoop, distMonthLoop,
    distMonthStep, applyLifeEvents, List.dropLast]

/-- C1 witness: the conservation identity evaluated on concrete event-free
accumulation and distribution runs. -/
theorem monthly_conservation_identity_witness :
    (((calculateAccumulationPhase wAccParams []).yearlyData.get
        ⟨0, wAccLen⟩).closingBalance =
      ((calculateAccumulationPhase wAccParams []).yearlyData.get
        ⟨0, wAccLen⟩).openingBalance +
      ((calculateAccumulationPhase wAccParams []).yearlyData.get
        ⟨0, wAccLen⟩).interestEarned +
      ((calculateAccumulationPhase wAccParams []).yearlyData.get
        ⟨0, wAccLen⟩).contribution) ∧
    (((calculateDistributionPhase wDistParams 100 0 0 []).yearlyData.get
        ⟨0, wDistLen⟩).closingBalance =
      ((calculateDistributionPhase wDistParams 100 0 0 []).yearlyData.get
        ⟨0, wDistLen⟩).openingBalance +
      ((calculateDistributionPhase wDistParams 100 0 0 []).yearlyData.get
        ⟨0, wDistLen⟩).interestEarned +
      ((calculateDistributionPhase wDistParams 100 0 0 []).yearlyData.get
        ⟨0, wDistLen⟩).contribution -
      ((calculateDistributionPhase wDistParams 100 0 0 []).yearlyData.get
        ⟨0, wDistLen⟩).withdrawal) :=
  ⟨monthly_conservation_identity.2.2.1 wAccParams [] _ (List.get_mem _ _ _) (by simp),
   monthly_conservation_identity.2.2.2 wDistParams 100 0 0 [] _ (List.get_mem _ _ _) (by simp)⟩

/-- C2: with non-negative lump sum, contributions, withdrawal, rates and
event amounts, every year record of either engine closes with a
non-negative balance. -/
theorem closing_balance_nonneg :
    (∀ (p : AccParams) (evs : List LifeEvent),
        0 ≤ p.initialLumpSum → 0 ≤ p.baseMonthlySIP → 0 ≤ p.annualStepUpPercent →
        0 ≤ p.expectedReturnPercent → (∀ e ∈ evs, 0 ≤ e.amount) →
        ∀ rec ∈ (calculateAccumulationPhase p evs).yearlyData,
          0 ≤ rec.closingBalance) ∧
    (∀ (dp : DistParams) (corpus : ℚ) (ay : ℕ) (infl : ℚ) (evs : List LifeEvent),
        0 ≤ corpus → 0 ≤ dp.initialMonthlyWithdrawal → 0 ≤ dp.ongoingMonthlySIP →
        0 ≤ dp.withdrawalGrowthPercent → 0 ≤ dp.sipStepUpPercent →
        0 ≤ dp.expectedReturnPercent → (∀ e ∈ evs, 0 ≤ e.amount) →
        ∀ rec ∈ (calculateDistributionPhase dp corpus ay infl evs).yearlyData,
          0 ≤ rec.closingBalance) := by
  constructor
  · intro p evs hL hS hU hR hev rec hrec
    simp only [calculateAccumulationPhase] at hrec
    have hmr : 0 ≤ p.expectedReturnPercent / 100 / 12 := by positivity
    have hsu : 0 ≤ p.annualStepUpPercent / 100 := by positivity
    exact accYearLoop_records_nonneg _ _ _ _ hmr hsu hev _ _ _ _ _ hL hS rec hrec
  · intro dp corpus ay infl evs hC _ _ _ _ _ hev rec hrec
    by_cases hg : corpus ≤ 0 ∨ dp.initialMonthlyWithdrawal ≤ 0
    · rw [calculateDistributionPhase, if_pos hg] at hrec
      exact absurd hrec (by simp)
    · rw [calculateDistributionPhase, if_neg hg] at hrec
      exact distYearLoop_records_nonneg _ _ _ _ _ _ hev _ _ _ _ _ _ _ _ hC rec hrec

/-- C2 witness: non-negativity evaluated on concrete runs with a withdrawal
event in the accumulation phase and a depleting distribution run. -/
theorem closing_balance_nonneg_witness :
    (0 ≤ ((calculateAccumulationPhase wAccParams [wEvent]).yearlyData.get
        ⟨0, wAccEvLen⟩).closingBalance) ∧
    (0 ≤ ((calculateDistributionPhase wDistParams 100 0 0 []).yearlyData.get
        ⟨0, wDistLen⟩).closingBalance) :=
  ⟨closing_balance_nonneg.1 wAccParams [wEvent] (by norm_num [wAccParams])
      (by norm_num [wAccParams]) (by norm_num [wAccParams]) (by norm_num [wAccParams])
      (by intro e he; simp at he; subst he; norm_num [wEvent]) _ (List.get_mem _ _ _),
   closing_balance_nonneg.2 wDistParams 100 0 0 [] (by norm_num)
      (by norm_num [wDistParams]) (by norm_num [wDistParams]) (by norm_num [wDistParams])
      (by norm_num [wDistParams]) (by norm_num [wDistParams]) (by simp) _
      (List.get_mem _ _ _)⟩

/-- C3: once a distribution run's balance reaches zero the run is terminal:
every record except the last closes with a strictly positive balance, so a
depleted year is always the final record, whatever later events are
scheduled. -/
theorem depletion_terminal (dp : DistParams) (corpus : ℚ) (ay : ℕ) (infl : ℚ)
    (evs : List LifeEvent) :
    ∀ rec ∈ (calculateDistributionPhase dp corpus ay infl evs).yearlyData.dropLast,
      0 < rec.closingBalance := by
  intro rec hrec
  by_cases hg : corpus ≤ 0 ∨ dp.initialMonthlyWithdrawal ≤ 0
  · rw [calculateDistributionPhase, if_pos hg] at hrec
    exact absurd hrec (by simp)
  · rw [calculateDistributionPhase, if_neg hg] at hrec
    exact mem_dropLast_of_chain' _ _ (distYearLoop_chain_pos _ _ _ _ _ _ _ _ _ _ _ _ _ _)
      rec hrec

/-- C3 witness: the non-final record of a concrete two-year distribution run
has a positive closing balance. -/
theorem depletion_terminal_witness :
    0 < ((calculateDistributionPhase wDistParams 100 0 0 []).yearlyData.dropLast.get
      ⟨0, wDistDropLen⟩).closingBalance :=
  depletion_terminal wDistParams 100 0 0 [] _ (List.get_mem _ _ _)

/-- C4: for a non-positive starting corpus or a non-positive initial monthly
withdrawal the distribution engine returns immediately: no year simulated,
empty records, zero survival, `isForever` false. -/
theorem distribution_guard (dp : DistParams) (corpus : ℚ) (ay : ℕ) (infl : ℚ)
    (evs : List LifeEvent) (h : corpus ≤ 0 ∨ dp.initialMonthlyWithdrawal ≤ 0) :
    calculateDistributionPhase dp corpus ay infl evs =
      { yearlyData := []
        survivalPeriod := { years := 0, months := 0, totalMonths := none, isForever := false }
        summary := none } := by
  rw [calculateDistributionPhase, if_pos h]

/-- C4 witness: the guard evaluated at a zero corpus. -/
theorem distribution_guard_witness :
    calculateDistributionPhase wDistParams 0 0 6 [] =
      { yearlyData := []
        survivalPeriod := { years := 0, months := 0, totalMonths := none, isForever := false }
        summary := none } :=
  distribution_guard wDistParams 0 0 6 [] (Or.inl le_rfl)

/-- C10: the guard return of the distribution engine carries no `summary`
at all, while every non-guarded invocation returns a present `summary`. -/
theorem distribution_summary_presence (dp : DistParams) (corpus : ℚ) (ay : ℕ)
    (infl : ℚ) (evs : List LifeEvent) :
    ((corpus ≤ 0 ∨ dp.initialMonthlyWithdrawal ≤ 0) →
      (calculateDistributionPhase dp corpus ay infl evs).summary = none) ∧
    (0 < corpus → 0 < dp.initialMonthlyWithdrawal →
      ((calculateDistributionPhase dp corpus ay infl evs).summary).isSome = true) := by
  constructor
  · intro h
    rw [calculateDistributionPhase, if_pos h]
  · intro h1 h2
    have hg : ¬(corpus ≤ 0 ∨ dp.initialMonthlyWithdrawal ≤ 0) := by
      push_neg
      exact ⟨h1, h2⟩
    rw [calculateDistributionPhase, if_neg hg]
    rfl

/-- C10 witness: the summary field is absent on a guarded call and present
on a non-guarded one. -/
theorem distribution_summary_presence_witness :
    (calculateDistributionPhase wDistParams 0 0 6 []).summary = none ∧
    ((calculateDistributionPhase wDistParams 100 0 6 []).summary).isSome = true :=
  ⟨(distribution_summary_presence wDistParams 0 0 6 []).1 (Or.inl le_rfl),
   (distribution_summary_presence wDistParams 100 0 6 []).2 (by norm_num)
     (by norm_num [wDistParams])⟩

/-- C5 counterexample: with contribution 0 ≤ 100 and growth rate 0 the
closing balances are not non-decreasing for every supplied event list — a
year-2 cash-event withdrawal shrinks the corpus below year 1's close. -/
theorem corpus_monotone_counterexample :
    0 ≤ wAccParams.baseMonthlySIP ∧ 0 ≤ wAccParams.expectedReturnPercent ∧
    ¬ List.Chain (· ≤ ·) wAccParams.initialLumpSum
        ((calculateAccumulationPhase wAccParams [wEvent2]).yearlyData.map
          (fun r => r.closingBalance)) := by
  refine ⟨by norm_num [wAccParams], by norm_num [wAccParams], ?_⟩
  have hl : (calculateAccumulationPhase wAccParams [wEvent2]).yearlyData.map
      (fun r => r.closingBalance) = [2200, 1200] := by
    norm_num [calculateAccumulationPhase, wAccParams, wEvent2, accYearLoop,
      accMonthLoop, accMonthStep, applyLifeEvents, applyLifeEvent]
  rw [hl]
  intro hch
  cases hch with
  | cons hab htail =>
      cases htail with
      | cons hbc _ => norm_num at hbc

/-- C5 (amended): for non-negative lump sum, contribution, step-up and
growth rate, and a cash-event list made only of additions with non-negative
amounts, the accumulation closing balances are non-decreasing year over
year, starting at or above the initial lump sum. -/
theorem corpus_monotone (p : AccParams) (evs : List LifeEvent)
    (hL : 0 ≤ p.initialLumpSum) (hS : 0 ≤ p.baseMonthlySIP)
    (hU : 0 ≤ p.annualStepUpPercent) (hR : 0 ≤ p.expectedReturnPercent)
    (hev : ∀ e ∈ evs, e.type = EventType.addition ∧ 0 ≤ e.amount) :
    List.Chain (· ≤ ·) p.initialLumpSum
      ((calculateAccumulationPhase p evs).yearlyData.map
        (fun r => r.closingBalance)) := by
  simp only [calculateAccumulationPhase]
  exact accYearLoop_chain _ _ _ _ (by positivity) (by positivity) hev _ _ _ _ _ hL hS

/-- C5 witness: monotone closing balances on the concrete event-free run. -/
theorem corpus_monotone_witness :
    List.Chain (· ≤ ·) wAccParams.initialLumpSum
      ((calculateAccumulationPhase wAccParams []).yearlyData.map
        (fun r => r.closingBalance)) :=
  corpus_monotone wAccParams [] (by norm_num [wAccParams]) (by norm_num [wAccParams])
    (by norm_num [wAccParams]) (by norm_num [wAccParams]) (by simp)

/-- The bisection loop, when it exits through the tolerance break, returns a
contribution whose projected corpus is within 100 of the target. -/
lemma bisectLoop_converged (L su r : ℚ) (yrs : ℕ) (T : ℚ) :
    ∀ (n : ℕ) (low high cur : ℚ),
      (bisectLoop L su r yrs T n low high cur).2 = true →
      |calculateFutureValue
          { lumpSum := L, monthlySIP := (bisectLoop L su r yrs T n low high cur).1,
            stepUpPercent := su, expectedReturnPercent := r, years := yrs } - T| < 100 := by
  intro n
  induction n with
  | zero => intro low high cur h; simp [bisectLoop] at h
  | succ k ih =>
      intro low high cur h
      simp only [bisectLoop] at h ⊢
      by_cases h1 : |calculateFutureValue
          { lumpSum := L, monthlySIP := (low + high) / 2, stepUpPercent := su,
            expectedReturnPercent := r, years := yrs } - T| < 100
      · rw [if_pos h1] at h ⊢
        exact h1
      · rw [if_neg h1] at h ⊢
        by_cases h2 : calculateFutureValue
            { lumpSum := L, monthlySIP := (low + high) / 2, stepUpPercent := su,
              expectedReturnPercent := r, years := yrs } < T
        · rw [if_pos h2] at h ⊢
          exact ih _ _ _ h
        · rw [if_neg h2] at h ⊢
          exact ih _ _ _ h

/-- One unfolding of the bisection loop: when the first midpoint already
projects within tolerance, the loop returns it with the break flag set. -/
lemma bisectLoop_first (L su r : ℚ) (yrs : ℕ) (T : ℚ) (n : ℕ) (low high cur : ℚ)
    (h : |calculateFutureValue
        { lumpSum := L, monthlySIP := (low + high) / 2, stepUpPercent := su,
          expectedReturnPercent := r, years := yrs } - T| < 100) :
    bisectLoop L su r yrs T (n + 1) low high cur = ((low + high) / 2, true) := by
  rw [bisectLoop]
  simp only [if_pos h]

/-- C6: goal-solver round trip.  When the target is finite, the lump sum
alone falls short, and the bisection exits through its tolerance break, the
reported projected corpus is within ₹100 of the target. -/
theorem goal_roundtrip (p : SIPParams) (target : ℚ)
    (hT : p.targetCorpus = some target)
    (hgap : calculateFutureValue
        { lumpSum := p.currentLumpSum, monthlySIP := 0, stepUpPercent := 0,
          expectedReturnPercent := p.expectedReturnPercent,
          years := p.yearsToRetirement } < target)
    (hconv : (bisectLoop p.currentLumpSum p.stepUpPercent p.expectedReturnPercent
        p.yearsToRetirement target 100 0 (target / 12) 0).2 = true) :
    ((calculateRequiredSIP p).projectedCorpus).isSome = true ∧
      |((calculateRequiredSIP p).projectedCorpus).getD 0 - target| < 100 := by
  have hlt : ¬(target ≤ calculateFutureValue
      { lumpSum := p.currentLumpSum, monthlySIP := 0, stepUpPercent := 0,
        expectedReturnPercent := p.expectedReturnPercent,
        years := p.yearsToRetirement }) := not_le.mpr hgap
  simp only [calculateRequiredSIP, hT]
  rw [if_neg hlt]
  refine ⟨rfl, ?_⟩
  simpa using bisectLoop_converged p.currentLumpSum p.stepUpPercent
    p.expectedReturnPercent p.yearsToRetirement target 100 0 (target / 12) 0 hconv

/-- C6 witness: on the concrete convergent instance the projected corpus is
within ₹100 of the 120 target. -/
theorem goal_roundtrip_witness :
    ((calculateRequiredSIP wGoalParams).projectedCorpus).isSome = true ∧
      |((calculateRequiredSIP wGoalParams).projectedCorpus).getD 0 - 120| < 100 :=
  goal_roundtrip wGoalParams 120 rfl
    (by norm_num [wGoalParams, calculateFutureValue, fvYearLoop, compoundMonths])
    (by
      have h1 : |calculateFutureValue
          { lumpSum := (0 : ℚ), monthlySIP := ((0 : ℚ) + 120 / 12) / 2, stepUpPercent := 0,
            expectedReturnPercent := 0, years := 1 } - 120| < 100 := by
        norm_num [calculateFutureValue, fvYearLoop, compoundMonths, abs_sub_lt_iff]
      show (bisectLoop 0 0 0 1 120 100 0 (120 / 12) 0).2 = true
      rw [show (100 : ℕ) = 99 + 1 from rfl]
      rw [bisectLoop_first 0 0 0 1 120 99 0 (120 / 12) 0 h1])

/-- C7: with indefinite sustainability, a non-positive net real rate (return
against withdrawal growth, Fisher equation) yields the infinite-target
sentinel, a positive net real rate yields `annualWithdrawal / realRate`, and
the infinite sentinel makes the SIP solver report unachievable with its
explanatory message, without running the bisection. -/
theorem perpetuity_sentinel (p : CorpusParams) (sp : SIPParams)
    (hforever : p.sustainForever = true) :
    (calculateRealRate p.expectedReturnPercent p.withdrawalGrowthPercent ≤ 0 →
        (calculateTargetCorpus p).targetCorpus = none) ∧
    (0 < calculateRealRate p.expectedReturnPercent p.withdrawalGrowthPercent →
        (calculateTargetCorpus p).targetCorpus =
          some ((calculateTargetCorpus p).annualWithdrawal /
            (calculateRealRate p.expectedReturnPercent p.withdrawalGrowthPercent / 100))) ∧
    (sp.targetCorpus = none →
        (calculateRequiredSIP sp).isAchievable = false ∧
        (calculateRequiredSIP sp).requiredSIP = none ∧
        (calculateRequiredSIP sp).projectedCorpus = none ∧
        (calculateRequiredSIP sp).message =
          "Real rate is zero or negative. Perpetual income not possible.") := by
  refine ⟨?_, ?_, ?_⟩
  · intro h
    simp only [calculateRealRate] at h
    have h2 : ((1 + p.expectedReturnPercent / 100) / (1 + p.withdrawalGrowthPercent / 100) - 1) *
        100 / 100 ≤ 0 := by linarith
    simp only [calculateTargetCorpus, hforever, if_true]
    rw [if_pos h2]
  · intro h
    simp only [calculateRealRate] at h
    have h2 : ¬(((1 + p.expectedReturnPercent / 100) / (1 + p.withdrawalGrowthPercent / 100) - 1) *
        100 / 100 ≤ 0) := not_le.mpr (by linarith)
    simp only [calculateTargetCorpus, calculateRealRate, hforever, if_true]
    rw [if_neg h2]
  · intro h
    simp [calculateRequiredSIP, h]

/-- C7 witness: the sentinel at equal return and withdrawal growth, the
finite perpetuity target at a positive net real rate, and the unachievable
report for the sentinel input. -/
theorem perpetuity_sentinel_witness :
    (calculateTargetCorpus wCorpusParams).targetCorpus = none ∧
    (calculateTargetCorpus wCorpusParamsPos).targetCorpus =
      some ((calculateTargetCorpus wCorpusParamsPos).annualWithdrawal /
        (calculateRealRate wCorpusParamsPos.expectedReturnPercent
          wCorpusParamsPos.withdrawalGrowthPercent / 100)) ∧
    (calculateRequiredSIP wSIPParamsInf).isAchievable = false ∧
    (calculateRequiredSIP wSIPParamsInf).requiredSIP = none :=
  ⟨(perpetuity_sentinel wCorpusParams wSIPParamsInf rfl).1
      (by norm_num [calculateRealRate, wCorpusParams]),
   (perpetuity_sentinel wCorpusParamsPos wSIPParamsInf rfl).2.1
      (by norm_num [calculateRealRate, wCorpusParamsPos]),
   ((perpetuity_sentinel wCorpusParams wSIPParamsInf rfl).2.2 rfl).1,
   ((perpetuity_sentinel wCorpusParams wSIPParamsInf rfl).2.2 rfl).2.1⟩

/-- The Monte Carlo accumulation loop instantiated: its per-year monthly
rate is the floored `max 0 (draws i) / 12`. -/
lemma mcAccPhase_eq (su : ℚ) (draws : ℕ → ℚ) :
    ∀ (n i : ℕ) (b sip : ℚ),
      mcAccPhase su draws n i b sip =
        mcAccPhaseR su draws (fun k => max 0 (draws k) / 12) n i b sip := by
  intro n
  induction n with
  | zero => intro i b sip; rfl
  | succ m ih =>
      intro i b sip
      simp only [mcAccPhase, mcAccPhaseR]
      rw [ih]

/-- The Monte Carlo distribution loop instantiated: its per-year monthly
rate is the unfloored `draws (durationYears + j) / 12`. -/
lemma mcDistPhase_eq (wg ss : ℚ) (dur : ℕ) (draws : ℕ → ℚ) :
    ∀ (n j : ℕ) (b wd sip : ℚ),
      mcDistPhase wg ss dur draws n j b wd sip =
        mcDistPhaseR wg ss dur draws (fun k => draws (dur + k) / 12) n j b wd sip := by
  intro n
  induction n with
  | zero => intro j b wd sip; rfl
  | succ m ih =>
      intro j b wd sip
      simp only [mcDistPhase, mcDistPhaseR]
      rw [ih]

/-- C8: a Monte Carlo single run equals the rate-parametric engine run with
accumulation rates `max 0 (draws i) / 12` (floored at zero) and distribution
rates `draws (durationYears + j) / 12` (no floor), for every sequence of
sampled returns. -/
theorem mc_rate_schedules (accP : AccParams) (distP : DistParams) (ty : ℕ)
    (draws : ℕ → ℚ) :
    runSingleSimulation accP distP ty draws =
      runSingleWithRates accP distP ty draws
        (fun i => max 0 (draws i) / 12)
        (fun j => draws (accP.durationYears + j) / 12) := by
  simp only [runSingleSimulation, runSingleWithRates]
  rw [mcAccPhase_eq, mcDistPhase_eq]

/-- Order statistics read through `getD` from a sorted list are monotone in
the index. -/
lemma sorted_getD_le (l : List ℚ) (hs : List.Sorted (· ≤ ·) l) (i j : ℕ)
    (hij : i ≤ j) (hj : j < l.length) : l.getD i 0 ≤ l.getD j 0 := by
  have hi : i < l.length := lt_of_le_of_lt hij hj
  rw [List.getD_eq_getElem l 0 hi, List.getD_eq_getElem l 0 hj]
  exact hs.rel_get_of_le (a := ⟨i, hi⟩) (b := ⟨j, hj⟩) (Fin.mk_le_mk.mpr hij)

/-- Every percentile band built by `mcBands` over `n ≥ 1` runs is ordered:
min ≤ p10 ≤ p25 ≤ p50 ≤ p75 ≤ p90 ≤ max. -/
lemma mcBands_fields (dur n ty : ℕ) (results : List MCRunResult)
    (hlen : results.length = n) (hn : 1 ≤ n) :
    ∀ band ∈ mcBands dur n ty results,
      band.min ≤ band.p10 ∧ band.p10 ≤ band.p25 ∧ band.p25 ≤ band.p50 ∧
      band.p50 ≤ band.p75 ∧ band.p75 ≤ band.p90 ∧ band.p90 ≤ band.max := by
  intro band hband
  simp only [mcBands, List.mem_map, List.mem_range] at hband
  obtain ⟨yearIdx, -, rfl⟩ := hband
  have hslen : (List.insertionSort (· ≤ ·) (results.map (fun r =>
      match r.yearlyBalances.get? yearIdx with
      | some rec => rec.balance
      | none => 0))).length = n := by
    rw [(List.perm_insertionSort _ _).length_eq, List.length_map, hlen]
  have hsorted := List.sorted_insertionSort (· ≤ ·) (results.map (fun r =>
      match r.yearlyBalances.get? yearIdx with
      | some rec => rec.balance
      | none => 0))
  have key : ∀ i j : ℕ, i ≤ j → j < n →
      (List.insertionSort (· ≤ ·) (results.map (fun r =>
        match r.yearlyBalances.get? yearIdx with
        | some rec => rec.balance
        | none => 0))).getD i 0 ≤
      (List.insertionSort (· ≤ ·) (results.map (fun r =>
        match r.yearlyBalances.get? yearIdx with
        | some rec => rec.balance
        | none => 0))).getD j 0 := by
    intro i j hij hj
    exact sorted_getD_le _ hsorted i j hij (by rw [hslen]; exact hj)
  refine ⟨key 0 (n / 10) (Nat.zero_le _) (by omega),
    key (n / 10) (n / 4) (by omega) (by omega),
    key (n / 4) (n / 2) (by omega) (by omega),
    key (n / 2) (n * 3 / 4) (by omega) (by omega),
    key (n * 3 / 4) (n * 9 / 10) (by omega) (by omega),
    key (n * 9 / 10) (n - 1) (by omega) (by omega)⟩

/-- C9: for every aggregate over at least one run and any sampled returns,
each yearly band satisfies min ≤ p10 ≤ p25 ≤ p50 ≤ p75 ≤ p90 ≤ max, and the
success rate lies in [0, 100]. -/
theorem mc_aggregate_bounds (accP : AccParams) (distP : DistParams) (n : ℕ)
    (vol : ℚ) (ty : ℕ) (draws : ℕ → ℕ → ℚ) (hn : 1 ≤ n) :
    (∀ band ∈ (runMonteCarloSimulation accP distP n vol ty draws).percentileData,
        band.min ≤ band.p10 ∧ band.p10 ≤ band.p25 ∧ band.p25 ≤ band.p50 ∧
        band.p50 ≤ band.p75 ∧ band.p75 ≤ band.p90 ∧ band.p90 ≤ band.max) ∧
    0 ≤ (runMonteCarloSimulation accP distP n vol ty draws).successRate ∧
    (runMonteCarloSimulation accP distP n vol ty draws).successRate ≤ 100 := by
  have hn' : (0 : ℚ) < n := by exact_mod_cast hn
  refine ⟨?_, ?_, ?_⟩
  · intro band hband
    simp only [runMonteCarloSimulation] at hband
    exact mcBands_fields _ _ _ _ (by simp) hn band hband
  · simp only [runMonteCarloSimulation]
    positivity
  · simp only [runMonteCarloSimulation]
    have h1 : (((List.range n).map (fun i =>
        runSingleSimulation accP distP ty (draws i))).filter
          (fun r => r.survived)).length ≤ n := by
      refine le_trans (List.length_filter_le _ _) ?_
      simp
    have h2 : ((((List.range n).map (fun i =>
        runSingleSimulation accP distP ty (draws i))).filter
          (fun r => r.survived)).length : ℚ) / n ≤ 1 := by
      rw [div_le_one hn']
      exact_mod_cast h1
    calc ((((List.range n).map (fun i =>
          runSingleSimulation accP distP ty (draws i))).filter
            (fun r => r.survived)).length : ℚ) / n * 100 ≤ 1 * 100 :=
            mul_le_mul_of_nonneg_right h2 (by norm_num)
      _ = 100 := by norm_num

/-- C9 witness: success-rate bounds on a concrete one-run aggregate. -/
theorem mc_aggregate_bounds_witness :
    0 ≤ (runMonteCarloSimulation wAccParams wDistParams 1 (5 / 100) 1
        (fun _ _ => 0)).successRate ∧
    (runMonteCarloSimulation wAccParams wDistParams 1 (5 / 100) 1
        (fun _ _ => 0)).successRate ≤ 100 :=
  ⟨(mc_aggregate_bounds wAccParams wDistParams 1 (5 / 100) 1 (fun _ _ => 0) le_rfl).2.1,
   (mc_aggregate_bounds wAccParams wDistParams 1 (5 / 100) 1 (fun _ _ => 0) le_rfl).2.2⟩

end RetireCalc
